import Mathlib

/-!
Verification of the scheduler engine of `backend/routes/irrigation.py`
(Pulsar-Smart-Irrigation-FullStack).

The Python module keeps a global dict `active_schedules` mapping French
day names to per-day schedule dicts, ingests schedule updates in
`receive_schedule` (annotating each enabled day with an ML
recommendation, with a fixed fallback when the ML call raises), and runs
a background loop `monitor_schedules` that once per minute compares the
wall clock against the stored slots and triggers the MQTT actuation
call.  Python dicts are embedded as association lists with unique keys,
Python floats as rationals, fallible calls as `Except`, and the
surrounding HTTP plumbing is dropped.
-/

/-- Python `int(x)`: truncation toward zero (for the nonnegative values
occurring here, the floor). Embeds `duration_seconds = int(duration_minutes * 60)`
at line 192 of `irrigation.py`. -/
def pyInt (q : ℚ) : ℤ := if 0 ≤ q then ⌊q⌋ else ⌈q⌉

/-- Result dict of `ml_service.predict_irrigation`: the code reads the keys
`duree_minutes` and `volume_m3`. -/
structure Prediction where
  duree_minutes : ℚ
  volume_m3 : ℚ
deriving DecidableEq, Repr

/-- One value of the `active_schedules` dict: a per-day schedule dict.
`enabled` and `startTime` come from the inbound payload; the three `ai_*`
keys are added during ingestion (`receive_schedule`) and are therefore
optional, matching the defensive `schedule.get(key, default)` reads in
`monitor_schedules`. -/
structure ScheduleSlot where
  enabled : Bool
  startTime : String
  ai_duration_minutes : Option ℚ := none
  ai_volume_m3 : Option ℚ := none
  ai_optimized : Option Bool := none
deriving DecidableEq, Repr

/-- The argument triple of `mqtt_service.demarrer_arrosage_async(duration_seconds,
volume_m3, SCHEDULE_AI)` — one actuation-gateway invocation. -/
structure FireCall where
  duration_seconds : ℤ
  volume_m3 : ℚ
  origin : String
deriving DecidableEq, Repr

/-- The literal `day_mapping` dict of `monitor_schedules` (lines 176-179):
English `strftime(%A)` day names to the French keys of `active_schedules`. -/
def day_mapping : List (String × String) :=
  [("Monday", "Lundi"), ("Tuesday", "Mardi"), ("Wednesday", "Mercredi"),
   ("Thursday", "Jeudi"), ("Friday", "Vendredi"), ("Saturday", "Samedi"),
   ("Sunday", "Dimanche")]

/-- One evaluation of the body of `monitor_schedules` (lines 181-197), up to
the actuation call: given the store and the formatted current day /
current hour:minute, decide whether to fire and with which arguments.
Mirrors: `french_day = day_mapping.get(current_day)`; if `french_day` and
`french_day in active_schedules`, and the slot has truthy `enabled` and
`startTime == current_hour_min`, the MQTT call is made with
`int(schedule.get(ai_duration_minutes, 30) * 60)` seconds,
`schedule.get(ai_volume_m3, 0.6)` cubic meters and origin `SCHEDULE_AI`. -/
def evaluateTick (store : List (String × ScheduleSlot))
    (current_day current_hour_min : String) : Option FireCall :=
  match day_mapping.lookup current_day with
  | none => none
  | some french_day =>
    match store.lookup french_day with
    | none => none
    | some schedule =>
      if schedule.enabled && (schedule.startTime == current_hour_min) then
        some { duration_seconds := pyInt ((schedule.ai_duration_minutes.getD 30) * 60)
             , volume_m3 := schedule.ai_volume_m3.getD (3/5)
             , origin := "SCHEDULE_AI" }
      else none

/-- The hard-coded `default_features` list of `receive_schedule` (lines 114-116). -/
def default_features : List ℚ :=
  [25, 0, 65, 12, 1, 10000, 26, 42, 6/5, 34/5, 45, 38, 152, 3, 2]

/-- Processing of one enabled day inside the `receive_schedule` loop
(lines 119-135): call `ml_service.predict_irrigation(default_features)`;
on success spread the slot with the predicted `ai_duration_minutes` /
`ai_volume_m3` and `ai_optimized = True`; if the call raises, the
`except` branch stores the fallback 30 minutes / 0.6 cubic meters with
`ai_optimized = False`.  The ML call may succeed or fail independently
at each call site, so the oracle `predict` is indexed by the day whose
loop iteration performs the call. -/
def analyzeDay (predict : String → List ℚ → Except String Prediction)
    (day : String) (schedule : ScheduleSlot) : ScheduleSlot :=
  match predict day default_features with
  | Except.ok p =>
      { schedule with ai_duration_minutes := some p.duree_minutes
                    , ai_volume_m3 := some p.volume_m3
                    , ai_optimized := some true }
  | Except.error _ =>
      { schedule with ai_duration_minutes := some 30
                    , ai_volume_m3 := some (3/5)
                    , ai_optimized := some false }

/-- Response of the `/irrigation/schedule` endpoint: `success` and the
`analyzed_schedules` mapping that also becomes the new `active_schedules`. -/
structure ScheduleResponse where
  success : Bool
  analyzed_schedules : List (String × ScheduleSlot)
deriving DecidableEq, Repr

/-- Embedding of `receive_schedule` (lines 98-158): iterate over the inbound `schedules`
dict; days whose slot has falsy `enabled` are skipped entirely, enabled
days are annotated by `analyzeDay`.  The per-day `try/except` means an ML
failure never escapes the loop, so the endpoint replaces
`active_schedules` with the complete `analyzed_schedules` dict and
returns success. -/
def receive_schedule (predict : String → List ℚ → Except String Prediction)
    (schedules : List (String × ScheduleSlot)) : ScheduleResponse :=
  { success := true
  , analyzed_schedules :=
      schedules.filterMap fun ds =>
        if ds.2.enabled then some (ds.1, analyzeDay predict ds.1 ds.2) else none }

/-- Responses of the `/arroser` endpoint: HTTP 400 validation rejection,
HTTP 500 ML error, or the HTTP 200 prediction payload. -/
inductive ArroserResponse where
  | badRequest (msg : String)
  | serverError (msg : String)
  | ok (duree_minutes volume_eau_m3 : ℚ)
deriving DecidableEq, Repr

/-- Outcome of one `/arroser` request: the response, and whether
`ml_service.predict_irrigation` was invoked while producing it. -/
structure ArroserOutcome where
  response : ArroserResponse
  ml_called : Bool
deriving DecidableEq, Repr

/-- Embedding of `arroser` (lines 17-72).  A feature value is embedded as `Option ℚ`:
`some q` when Python `float(f)` succeeds with value `q`, `none` when the
conversion raises.  The code rejects with 400 when `not features or
len(features) != 15`, then converts every entry inside `try/except`
(rejecting with 400 on a conversion error), and only then calls the ML
service; an exception from the ML call yields a 500 response.  The model
always gives the prediction dict a `volume_m3` key, so the
`volume_m3 in prediction` guard of line 44 is always satisfied.
`floatAll` is the `features_array = [float(f) for f in features]` loop of
line 35 together with its enclosing `try/except`: it fails as soon as one
conversion fails. -/
def floatAll : List (Option ℚ) → Option (List ℚ)
  | [] => some []
  | f :: fs =>
    match f with
    | none => none
    | some q =>
      match floatAll fs with
      | none => none
      | some qs => some (q :: qs)

def arroser (predict : List ℚ → Except String Prediction)
    (features : List (Option ℚ)) : ArroserOutcome :=
  if features.isEmpty || features.length ≠ 15 then
    ⟨ArroserResponse.badRequest "Exactement 15 parametres requis pour le modele ML", false⟩
  else
    match floatAll features with
    | none =>
        ⟨ArroserResponse.badRequest "Les parametres doivent etre numeriques", false⟩
    | some features_array =>
        match predict features_array with
        | Except.error e => ⟨ArroserResponse.serverError e, true⟩
        | Except.ok p => ⟨ArroserResponse.ok p.duree_minutes p.volume_m3, true⟩

/-- Two-digit zero padding, as in `strftime` fields `%H` and `%M`. -/
def pad2 (n : ℕ) : String := if n < 10 then "0" ++ toString n else toString n

/-- Embedding of `current_time.strftime(%H:%M)` for a wall-clock instant given as
seconds since a Monday midnight. -/
def fmtHM (t : ℕ) : String := pad2 (t / 3600 % 24) ++ ":" ++ pad2 (t / 60 % 60)

/-- English day names in the order induced by anchoring second 0 at a
Monday midnight. -/
def englishDays : List String :=
  ["Monday", "Tuesday", "Wednesday", "Thursday", "Friday", "Saturday", "Sunday"]

/-- Embedding of `current_time.strftime(%A)` for a wall-clock instant given as seconds
since a Monday midnight. -/
def dayName (t : ℕ) : String := englishDays.getD (t / 86400 % 7) ""

/-- The actuation calls issued by a sequence of loop evaluations taken at
the wall-clock instants `ts` (seconds since a Monday midnight), each one
an execution of the `monitor_schedules` body against the store. -/
def fireEvents (store : List (String × ScheduleSlot)) (ts : List ℕ) :
    List (ℕ × FireCall) :=
  ts.filterMap fun t => (evaluateTick store (dayName t) (fmtHM t)).map fun c => (t, c)

/-- What one iteration of the `monitor_schedules` `while True` body can be
observed to do: the `except` clause caught an exception raised while
evaluating the tick, or the tick matched no slot, or the actuation call
was made and returned `success` (line 195); an actuation failure is only
printed (line 209), never raised. -/
inductive TickOutcome where
  | raised (e : String)
  | noFire
  | fired (success : Bool)
deriving DecidableEq, Repr

/-- One iteration of the `monitor_schedules` loop at instant `t`:
`exc t = some e` models an exception raised anywhere inside the `try`
block during that iteration (e.g. a malformed stored slot), caught by
the `except` branch of line 214; otherwise the body evaluates the tick
and, if a slot fires, invokes the gateway, whose success is given by the
oracle `act`. -/
def tickOnce (store : List (String × ScheduleSlot)) (act : FireCall → Bool)
    (exc : ℕ → Option String) (t : ℕ) : TickOutcome :=
  match exc t with
  | some e => TickOutcome.raised e
  | none =>
    match evaluateTick store (dayName t) (fmtHM t) with
    | none => TickOutcome.noFire
    | some c => TickOutcome.fired (act c)

/-- The `while True` loop of `monitor_schedules` (lines 169-216) run over
the wall-clock instants `ts` of its successive iterations: both the
normal path and the `except` path end in `time.sleep(60)` and fall
through to the next iteration, so every iteration appends its outcome
and continues with the remaining instants unconditionally. -/
def monitor_schedules_run (store : List (String × ScheduleSlot))
    (act : FireCall → Bool) (exc : ℕ → Option String) :
    List ℕ → List (ℕ × TickOutcome)
  | [] => []
  | t :: ts => (t, tickOnce store act exc t) :: monitor_schedules_run store act exc ts


/-- Claim C2: on every tick the actuation gateway is invoked exactly when the
current day key has a stored slot that is enabled and whose startTime string
equals the current hour:minute; an absent day key, a disabled slot, or any
startTime differing from the current minute (off by one minute included)
produces no actuation call. -/
theorem claim_C2_fire_characterization (store : List (String × ScheduleSlot))
    (cd hm : String) :
    (evaluateTick store cd hm).isSome = true ↔
    ∃ fd s, day_mapping.lookup cd = some fd ∧ store.lookup fd = some s ∧
      s.enabled = true ∧ s.startTime = hm := by
  unfold evaluateTick
  rcases hd : day_mapping.lookup cd with _ | fd <;> simp only [hd]
  · simp
  · rcases hs : store.lookup fd with _ | s <;> simp only [hs]
    · simp [hs]
    · by_cases hb : (s.enabled && (s.startTime == hm)) = true
      · rw [if_pos hb]
        rw [Bool.and_eq_true, beq_iff_eq] at hb
        simp only [Option.isSome_some, true_iff]
        exact ⟨fd, s, rfl, hs, hb.1, hb.2⟩
      · rw [if_neg hb]
        simp only [Option.isSome_none, Bool.false_eq_true, false_iff]
        rintro ⟨fd', s', h1, h2, h3, h4⟩
        injection h1 with h1
        subst h1
        rw [hs] at h2
        injection h2 with h2
        subst h2
        exact hb (by rw [Bool.and_eq_true, beq_iff_eq]; exact ⟨h3, h4⟩)

/-- Claim C10: when a matching enabled slot fires, the engine does not fail
on missing `ai_*` keys; the two keys default independently (lines 190-191
read each with its own `schedule.get(key, default)`): a missing
`ai_duration_minutes` yields the 30-minute default (1800 seconds) and a
missing `ai_volume_m3` yields the 0.6 cubic-meter default, whichever of the
two is absent. -/
theorem claim_C10_missing_ai_fields (store : List (String × ScheduleSlot))
    (cd hm fd : String) (s : ScheduleSlot)
    (h1 : day_mapping.lookup cd = some fd) (h2 : store.lookup fd = some s)
    (h3 : s.enabled = true) (h4 : s.startTime = hm) :
    (evaluateTick store cd hm).isSome = true ∧
    (s.ai_duration_minutes = none →
      (evaluateTick store cd hm).map FireCall.duration_seconds = some 1800) ∧
    (s.ai_volume_m3 = none →
      (evaluateTick store cd hm).map FireCall.volume_m3 = some (3/5)) := by
  have heval : evaluateTick store cd hm
      = some { duration_seconds := pyInt ((s.ai_duration_minutes.getD 30) * 60)
             , volume_m3 := s.ai_volume_m3.getD (3/5)
             , origin := "SCHEDULE_AI" } := by
    unfold evaluateTick
    simp only [h1, h2]
    rw [if_pos (by rw [Bool.and_eq_true, beq_iff_eq]; exact ⟨h3, h4⟩)]
  have hp : pyInt ((30 : ℚ) * 60) = 1800 := by rw [pyInt]; norm_num
  refine ⟨by rw [heval]; rfl, ?_, ?_⟩
  · intro h5
    rw [heval, h5]
    simp only [Option.getD_none, Option.map_some', hp]
  · intro h6
    rw [heval, h6]
    simp only [Option.getD_none, Option.map_some']

def exC10store : List (String × ScheduleSlot) :=
  [("Mardi", { enabled := true, startTime := "09:00", ai_volume_m3 := some (9/10) })]

/-- Witness for C10 at a concrete Tuesday slot with exactly one `ai_*` key
missing: `ai_duration_minutes` is absent (so 1800 seconds is used) while
`ai_volume_m3` is present. -/
theorem claim_C10_witness :
    (evaluateTick exC10store "Tuesday" "09:00").isSome = true ∧
    ((none : Option ℚ) = none →
      (evaluateTick exC10store "Tuesday" "09:00").map FireCall.duration_seconds = some 1800) ∧
    ((some ((9 : ℚ)/10) : Option ℚ) = none →
      (evaluateTick exC10store "Tuesday" "09:00").map FireCall.volume_m3 = some (3/5)) :=
  claim_C10_missing_ai_fields exC10store "Tuesday" "09:00" "Mardi"
    { enabled := true, startTime := "09:00", ai_volume_m3 := some (9/10) }
    (by decide) (by simp [exC10store]) rfl rfl

/-- Claim C3: for every enabled day in an inbound update whose ML
recommendation call fails, the stored slot carries the fallback values
`ai_duration_minutes = 30`, `ai_volume_m3 = 0.6` and `ai_optimized = false`. -/
theorem claim_C3_fallback_slot (predict : String → List ℚ → Except String Prediction)
    (schedules : List (String × ScheduleSlot)) (day : String) (s : ScheduleSlot) (e : String)
    (hmem : (day, s) ∈ schedules) (hen : s.enabled = true)
    (hfail : predict day default_features = Except.error e) :
    (day, { s with ai_duration_minutes := some 30, ai_volume_m3 := some (3/5),
                   ai_optimized := some false })
      ∈ (receive_schedule predict schedules).analyzed_schedules := by
  refine List.mem_filterMap.mpr ⟨(day, s), hmem, ?_⟩
  simp [hen, analyzeDay, hfail]

def exC3predict : String → List ℚ → Except String Prediction := fun _ _ => Except.error "down"

def exC3schedules : List (String × ScheduleSlot) :=
  [("Lundi", { enabled := true, startTime := "08:00" })]

/-- Witness for C3: a failing recommendation call stores the fallback slot. -/
theorem claim_C3_witness :
    ("Lundi", { enabled := true, startTime := "08:00", ai_duration_minutes := some 30,
                ai_volume_m3 := some (3/5), ai_optimized := some false : ScheduleSlot })
      ∈ (receive_schedule exC3predict exC3schedules).analyzed_schedules :=
  claim_C3_fallback_slot exC3predict exC3schedules "Lundi"
    { enabled := true, startTime := "08:00" } "down"
    (List.mem_singleton.mpr rfl) rfl rfl

/-- Helper for C4: when every inbound day is enabled, ingestion keeps all of
them (the filterMap skips nothing). -/
theorem receive_schedule_length (predict : String → List ℚ → Except String Prediction) :
    ∀ schedules : List (String × ScheduleSlot),
      (∀ ds ∈ schedules, (Prod.snd ds).enabled = true) →
      ((receive_schedule predict schedules).analyzed_schedules).length = schedules.length := by
  intro l
  induction l with
  | nil => intro _; rfl
  | cons a rest ih =>
    intro hall
    have ha : a.2.enabled = true := hall a (List.mem_cons_self a rest)
    simp only [receive_schedule, List.filterMap_cons, ha, if_true] at *
    simp only [List.length_cons]
    rw [ih (fun ds hds => hall ds (List.mem_cons_of_mem a hds))]

/-- Claim C4: a recommendation failure for one submitted day does not affect
the other days: each enabled day is stored according to the outcome of its
own ML call only (success stores the prediction with `ai_optimized = true`,
failure stores the fallback), every enabled day is kept, and the update as
a whole succeeds. -/
theorem claim_C4_partial_failure_isolation
    (predict : String → List ℚ → Except String Prediction)
    (schedules : List (String × ScheduleSlot))
    (hall : ∀ ds ∈ schedules, (Prod.snd ds).enabled = true) :
    (receive_schedule predict schedules).success = true ∧
    ((receive_schedule predict schedules).analyzed_schedules).length = schedules.length ∧
    (∀ ds ∈ schedules, ∀ p, predict (Prod.fst ds) default_features = Except.ok p →
      (ds.1, { ds.2 with ai_duration_minutes := some p.duree_minutes,
                         ai_volume_m3 := some p.volume_m3, ai_optimized := some true })
        ∈ (receive_schedule predict schedules).analyzed_schedules) ∧
    (∀ ds ∈ schedules, ∀ e, predict (Prod.fst ds) default_features = Except.error e →
      (ds.1, { ds.2 with ai_duration_minutes := some 30,
                         ai_volume_m3 := some (3/5), ai_optimized := some false })
        ∈ (receive_schedule predict schedules).analyzed_schedules) := by
  refine ⟨rfl, receive_schedule_length predict schedules hall, ?_, ?_⟩
  · intro ds hds p hp
    refine List.mem_filterMap.mpr ⟨ds, hds, ?_⟩
    simp [hall ds hds, analyzeDay, hp]
  · intro ds hds e he
    refine List.mem_filterMap.mpr ⟨ds, hds, ?_⟩
    simp [hall ds hds, analyzeDay, he]

def exC4predict : String → List ℚ → Except String Prediction :=
  fun d _ => if d = "Mercredi" then Except.error "down" else Except.ok ⟨45/2, 9/10⟩

def exC4schedules : List (String × ScheduleSlot) :=
  [("Lundi", { enabled := true, startTime := "08:00" }),
   ("Mardi", { enabled := true, startTime := "08:00" }),
   ("Mercredi", { enabled := true, startTime := "08:00" }),
   ("Jeudi", { enabled := true, startTime := "08:00" }),
   ("Vendredi", { enabled := true, startTime := "08:00" }),
   ("Samedi", { enabled := true, startTime := "08:00" }),
   ("Dimanche", { enabled := true, startTime := "08:00" })]

/-- Witness for C4: seven enabled days, the ML call failing exactly for
Wednesday; the update succeeds, all seven days are stored, Monday carries
the prediction with `ai_optimized = true` and Wednesday the fallback. -/
theorem claim_C4_witness :
    (receive_schedule exC4predict exC4schedules).success = true ∧
    ((receive_schedule exC4predict exC4schedules).analyzed_schedules).length = 7 ∧
    ("Lundi", { enabled := true, startTime := "08:00", ai_duration_minutes := some (45/2),
                ai_volume_m3 := some (9/10), ai_optimized := some true : ScheduleSlot })
      ∈ (receive_schedule exC4predict exC4schedules).analyzed_schedules ∧
    ("Mercredi", { enabled := true, startTime := "08:00", ai_duration_minutes := some 30,
                   ai_volume_m3 := some (3/5), ai_optimized := some false : ScheduleSlot })
      ∈ (receive_schedule exC4predict exC4schedules).analyzed_schedules := by
  obtain ⟨h1, h2, h3, h4⟩ :=
    claim_C4_partial_failure_isolation exC4predict exC4schedules (by decide)
  refine ⟨h1, h2, ?_, ?_⟩
  · exact h3 ("Lundi", { enabled := true, startTime := "08:00" }) (by decide) ⟨45/2, 9/10⟩ rfl
  · exact h4 ("Mercredi", { enabled := true, startTime := "08:00" }) (by decide) "down" rfl

/-- Helper for C5: a day whose inbound entries are all disabled has no entry
in the ingested store. -/
theorem receive_schedule_lookup_disabled (predict : String → List ℚ → Except String Prediction)
    (d : String) :
    ∀ schedules : List (String × ScheduleSlot),
      (∀ s, (d, s) ∈ schedules → s.enabled = false) →
      ((receive_schedule predict schedules).analyzed_schedules).lookup d = none := by
  intro l
  induction l with
  | nil => intro _; rfl
  | cons a rest ih =>
    intro hdis
    have hrest : ∀ s, (d, s) ∈ rest → s.enabled = false :=
      fun s hs => hdis s (List.mem_cons_of_mem a hs)
    by_cases hk : a.1 = d
    · have : a.2.enabled = false := hdis a.2 (by rw [← hk]; exact List.mem_cons_self a rest)
      simp only [receive_schedule, List.filterMap_cons, this, Bool.false_eq_true, if_false]
      exact ih hrest
    · by_cases hen : a.2.enabled = true
      · simp only [receive_schedule, List.filterMap_cons, hen, if_true]
        rw [List.lookup_cons, beq_false_of_ne (fun hdk => hk hdk.symm)]
        exact ih hrest
      · simp only [receive_schedule, List.filterMap_cons, hen, Bool.false_eq_true, if_false]
        exact ih hrest

/-- Claim C5 (amended): inbound slots with `enabled == false` are dropped by
ingestion — they do not appear in the resulting store — and a disabled slot,
wherever stored, never produces an actuation call. -/
theorem claim_C5_disabled_dropped (predict : String → List ℚ → Except String Prediction)
    (schedules : List (String × ScheduleSlot)) (d : String)
    (hdis : ∀ s, (d, s) ∈ schedules → s.enabled = false) :
    ((receive_schedule predict schedules).analyzed_schedules).lookup d = none ∧
    (∀ store cd hm (s : ScheduleSlot), day_mapping.lookup cd = some d →
      store.lookup d = some s → s.enabled = false → evaluateTick store cd hm = none) := by
  refine ⟨receive_schedule_lookup_disabled predict d schedules hdis, ?_⟩
  intro store cd hm s hcd hst hen
  simp only [evaluateTick, hcd, hst, hen, Bool.false_and, Bool.false_eq_true, if_false]

def exC5predict : String → List ℚ → Except String Prediction :=
  fun _ _ => Except.ok ⟨45/2, 9/10⟩

def exC5schedules : List (String × ScheduleSlot) :=
  [("Mardi", { enabled := false, startTime := "09:00" })]

/-- Counterexample for C5 as stated: a disabled Tuesday 09:00 slot does NOT
appear in the store after ingestion (the claim says disabled slots are
stored); no actuation occurs at Tuesday 09:00 either way. -/
theorem claim_C5_counterexample :
    ((receive_schedule exC5predict exC5schedules).analyzed_schedules).lookup "Mardi" = none ∧
    evaluateTick [("Mardi", { enabled := false, startTime := "09:00" })] "Tuesday" "09:00"
      = none := by
  constructor <;> decide

/-- Witness for the amended C5 at the concrete disabled Tuesday slot. -/
theorem claim_C5_witness :
    ((receive_schedule exC5predict exC5schedules).analyzed_schedules).lookup "Mardi" = none ∧
    (∀ store cd hm (s : ScheduleSlot), day_mapping.lookup cd = some "Mardi" →
      store.lookup "Mardi" = some s → s.enabled = false → evaluateTick store cd hm = none) :=
  claim_C5_disabled_dropped exC5predict exC5schedules "Mardi"
    (fun s hs => by
      have h1 := List.mem_singleton.mp hs
      have h2 : s = { enabled := false, startTime := "09:00" } := congrArg Prod.snd h1
      rw [h2])

/-- Helper for C8: the conversion loop fails as soon as one feature value is
not convertible to a number. -/
theorem floatAll_eq_none_of_mem (l : List (Option ℚ)) (h : ∃ x ∈ l, x = none) :
    floatAll l = none := by
  induction l with
  | nil => rcases h with ⟨x, hx, _⟩; cases hx
  | cons a rest ih =>
    rcases h with ⟨x, hx, hxn⟩
    subst hxn
    rcases List.mem_cons.mp hx with h1 | h2
    · rw [← h1]; rfl
    · show floatAll (a :: rest) = none
      unfold floatAll
      cases a with
      | none => rfl
      | some q => rw [ih ⟨none, h2, rfl⟩]

/-- Claim C8: a request whose feature list does not have exactly 15 entries,
or contains a value not convertible to a number, is rejected with a
validation error and the ML prediction service is never invoked. -/
theorem claim_C8_feature_validation (predict : List ℚ → Except String Prediction)
    (features : List (Option ℚ))
    (h : features.length ≠ 15 ∨ ∃ x ∈ features, x = none) :
    (∃ m, (arroser predict features).response = ArroserResponse.badRequest m) ∧
    (arroser predict features).ml_called = false := by
  by_cases h15 : features.length = 15
  · rcases h with hlen | hnone
    · exact absurd h15 hlen
    · have hne : features.isEmpty = false := by
        cases features with
        | nil => simp at h15
        | cons a rest => rfl
      unfold arroser
      rw [if_neg ?hc, floatAll_eq_none_of_mem features hnone]
      case hc => simp [hne, h15]
      exact ⟨⟨_, rfl⟩, rfl⟩
  · unfold arroser
    rw [if_pos ?hc]
    case hc => simp [h15]
    exact ⟨⟨_, rfl⟩, rfl⟩

def exC8predict : List ℚ → Except String Prediction := fun _ => Except.ok ⟨45/2, 9/10⟩

/-- Witness for C8: a single non-convertible feature value is rejected
before any ML call. -/
theorem claim_C8_witness :
    (∃ m, (arroser exC8predict [none]).response = ArroserResponse.badRequest m) ∧
    (arroser exC8predict [none]).ml_called = false :=
  claim_C8_feature_validation exC8predict [none] (Or.inl (by decide))

def exC6badstore : List (String × ScheduleSlot) :=
  [("Lundi", { enabled := true, startTime := "08:00", ai_duration_minutes := some (2251/100),
               ai_volume_m3 := some (9/10), ai_optimized := some true })]

/-- Counterexample for C6 as stated: for a 22.51-minute slot the code computes
`int(22.51 * 60) = 1350` seconds, while `round(22.51 * 60) = 1351`; the
gateway is therefore not called with `round(durationMinutes * 60)` for every
positive durationMinutes. -/
theorem claim_C6_counterexample :
    (evaluateTick exC6badstore "Monday" "08:00").map FireCall.duration_seconds = some 1350 ∧
    round ((2251 : ℚ)/100 * 60) = 1351 ∧
    (evaluateTick exC6badstore "Monday" "08:00").map FireCall.duration_seconds
      ≠ some (round ((2251 : ℚ)/100 * 60)) := by
  have h1 : (evaluateTick exC6badstore "Monday" "08:00").map FireCall.duration_seconds
      = some 1350 := by
    simp [evaluateTick, exC6badstore, day_mapping, List.lookup]
    rw [pyInt]
    norm_num
  have h2 : round ((2251 : ℚ)/100 * 60) = 1351 := by norm_num [round_eq]
  refine ⟨h1, h2, ?_⟩
  rw [h1, h2]
  decide

/-- Claim C6 (amended): when a slot fires, the gateway receives the slot's
volume and the origin tag SCHEDULE_AI, and a duration of
`int(durationMinutes * 60)` seconds — truncation toward zero, which agrees
with `round` exactly when the fractional part of `durationMinutes * 60` is
below one half (so 1350 seconds for a 22.5-minute slot). -/
theorem claim_C6_fire_arguments (store : List (String × ScheduleSlot))
    (cd hm fd : String) (s : ScheduleSlot) (call : FireCall)
    (h1 : day_mapping.lookup cd = some fd) (h2 : store.lookup fd = some s)
    (hfire : evaluateTick store cd hm = some call)
    (hnn : 0 ≤ s.ai_duration_minutes.getD 30)
    (hfr : Int.fract ((s.ai_duration_minutes.getD 30) * 60) < 1/2) :
    call.duration_seconds = round ((s.ai_duration_minutes.getD 30) * 60) ∧
    call.volume_m3 = s.ai_volume_m3.getD (3/5) ∧
    call.origin = "SCHEDULE_AI" := by
  have hcall : call = { duration_seconds := pyInt ((s.ai_duration_minutes.getD 30) * 60)
                      , volume_m3 := s.ai_volume_m3.getD (3/5)
                      , origin := "SCHEDULE_AI" } := by
    rw [evaluateTick] at hfire
    simp only [h1, h2] at hfire
    by_cases hb : (s.enabled && (s.startTime == hm)) = true
    · rw [if_pos hb] at hfire
      exact (Option.some_inj.mp hfire).symm
    · rw [if_neg hb] at hfire
      cases hfire
  have hnn60 : (0 : ℚ) ≤ (s.ai_duration_minutes.getD 30) * 60 := by positivity
  have hfract : Int.fract ((s.ai_duration_minutes.getD 30) * 60)
      = (s.ai_duration_minutes.getD 30) * 60 - ⌊(s.ai_duration_minutes.getD 30) * 60⌋ :=
    (Int.self_sub_floor ((s.ai_duration_minutes.getD 30) * 60)).symm
  have hround : round ((s.ai_duration_minutes.getD 30) * 60)
      = ⌊(s.ai_duration_minutes.getD 30) * 60⌋ := by
    rw [round_eq]
    have hle : (⌊(s.ai_duration_minutes.getD 30) * 60⌋ : ℚ)
        ≤ (s.ai_duration_minutes.getD 30) * 60 + 1/2 := by
      have := Int.floor_le ((s.ai_duration_minutes.getD 30) * 60)
      linarith
    have hlt : (s.ai_duration_minutes.getD 30) * 60 + 1/2
        < ⌊(s.ai_duration_minutes.getD 30) * 60⌋ + 1 := by
      rw [hfract] at hfr
      linarith
    exact Int.floor_eq_iff.mpr ⟨hle, hlt⟩
  rw [hcall]
  refine ⟨?_, rfl, rfl⟩
  show pyInt ((s.ai_duration_minutes.getD 30) * 60) = _
  rw [pyInt, if_pos hnn60, hround]

def exC6store : List (String × ScheduleSlot) :=
  [("Lundi", { enabled := true, startTime := "08:00", ai_duration_minutes := some (45/2),
               ai_volume_m3 := some (9/10), ai_optimized := some true })]

/-- Witness for the amended C6 at the 22.5-minute, 0.9-cubic-meter slot of
the spec scenario: 1350 seconds, volume 0.9, origin SCHEDULE_AI. -/
theorem claim_C6_witness :
    (FireCall.mk 1350 (9/10) "SCHEDULE_AI").duration_seconds
      = round ((Option.getD (some ((45:ℚ)/2)) 30) * 60) ∧
    (FireCall.mk 1350 (9/10) "SCHEDULE_AI").volume_m3
      = Option.getD (some ((9:ℚ)/10)) (3/5) ∧
    (FireCall.mk 1350 (9/10) "SCHEDULE_AI").origin = "SCHEDULE_AI" := by
  have hfire : evaluateTick exC6store "Monday" "08:00"
      = some (FireCall.mk 1350 (9/10) "SCHEDULE_AI") := by
    simp [evaluateTick, exC6store, day_mapping, List.lookup]
    rw [pyInt]
    norm_num
  exact claim_C6_fire_arguments exC6store "Monday" "08:00" "Lundi"
    { enabled := true, startTime := "08:00", ai_duration_minutes := some (45/2),
      ai_volume_m3 := some (9/10), ai_optimized := some true }
    (FireCall.mk 1350 (9/10) "SCHEDULE_AI")
    (by decide) (by simp [exC6store]) hfire (by norm_num) (by norm_num [Int.fract])

def exC1store : List (String × ScheduleSlot) :=
  [("Lundi", { enabled := true, startTime := "00:00", ai_duration_minutes := some 30,
               ai_volume_m3 := some (3/5), ai_optimized := some true })]

/-- Counterexample for C1 as stated: the code keeps no FireRecord at all, so
two loop evaluations landing in the same minute (here seconds 0 and 30 of a
Monday, both formatted as Monday 00:00) each invoke the actuation gateway —
two calls for the same day and minute, not at most one. -/
theorem claim_C1_counterexample :
    dayName 0 = dayName 30 ∧ fmtHM 0 = fmtHM 30 ∧ (0 : ℕ) / 60 = 30 / 60 ∧
    (fireEvents exC1store [0, 30]).length = 2 := by
  refine ⟨rfl, rfl, rfl, ?_⟩
  decide

/-- Helper for C1: every actuation event carries the instant of the tick
that produced it. -/
theorem mem_fireEvents_fst (store : List (String × ScheduleSlot)) (ts : List ℕ)
    (p : ℕ × FireCall) (hp : p ∈ fireEvents store ts) : p.1 ∈ ts := by
  rcases List.mem_filterMap.mp hp with ⟨t, ht, hf⟩
  rcases Option.map_eq_some'.mp hf with ⟨c, _, hpc⟩
  rw [← hpc]
  exact ht

/-- Claim C1 (amended): the loop has no FireRecord; duplicate suppression
rests solely on the 60-second sleep between iterations. When consecutive
evaluations are at least 60 seconds apart, the actuation calls of a run
occur at strictly increasing wall-clock minutes — hence at most one call
per day and minute — but nothing in the code prevents a double fire if two
evaluations do land in the same minute. -/
theorem claim_C1_spaced_ticks_distinct_minutes (store : List (String × ScheduleSlot))
    (ts : List ℕ) (hsp : List.Chain' (fun a b => a + 60 ≤ b) ts) :
    List.Pairwise (fun p q : ℕ × FireCall => p.1 / 60 < q.1 / 60) (fireEvents store ts) := by
  haveI : IsTrans ℕ (fun a b => a + 60 ≤ b) := ⟨fun a b c hab hbc => by omega⟩
  have hp : List.Pairwise (fun a b => a + 60 ≤ b) ts := List.chain'_iff_pairwise.mp hsp
  have hm : List.Pairwise (fun a b : ℕ => a / 60 < b / 60) ts := by
    refine hp.imp ?_
    intro a b hab
    have h1 : (a + 60) / 60 ≤ b / 60 := Nat.div_le_div_right hab
    have h2 : (a + 60) / 60 = a / 60 + 1 := Nat.add_div_right a (by norm_num)
    omega
  refine List.Pairwise.filterMap _ ?_ hm
  intro a b hab x hx y hy
  rcases Option.map_eq_some'.mp hx with ⟨c, _, hxc⟩
  rcases Option.map_eq_some'.mp hy with ⟨c', _, hyc⟩
  rw [← hxc, ← hyc]
  exact hab

/-- Witness for the amended C1: two ticks 60 seconds apart fire in distinct
minutes. -/
theorem claim_C1_witness :
    List.Chain' (fun a b => a + 60 ≤ b) [0, 60] ∧
    List.Pairwise (fun p q : ℕ × FireCall => p.1 / 60 < q.1 / 60)
      (fireEvents exC1store [0, 60]) :=
  ⟨by simp, claim_C1_spaced_ticks_distinct_minutes exC1store [0, 60] (by simp)⟩

/-- Claim C7: no outcome terminates the background loop: whatever the
exception oracle `exc` (exceptions raised while evaluating a tick, caught by
the except branch) and the actuation oracle `act` (gateway failures, only
logged) do, the run evaluates every scheduled iteration in order and records
each iteration's outcome. -/
theorem claim_C7_loop_liveness (store : List (String × ScheduleSlot))
    (act : FireCall → Bool) (exc : ℕ → Option String) (ts : List ℕ) :
    (monitor_schedules_run store act exc ts).map Prod.fst = ts ∧
    ∀ p ∈ monitor_schedules_run store act exc ts, p.2 = tickOnce store act exc p.1 := by
  induction ts with
  | nil => exact ⟨rfl, fun p hp => absurd hp (List.not_mem_nil p)⟩
  | cons t rest ih =>
    refine ⟨?_, ?_⟩
    · simp only [monitor_schedules_run, List.map_cons, ih.1]
    · intro p hp
      rcases List.mem_cons.mp hp with h | h
      · rw [h]
      · exact ih.2 p h
